import Mathlib

/-!
Verification development for the bob-code orchestration core.

Shallow embedding of the Python sources under `src/`:
the message data model (`src/providers/models.py`), the tool contract and
registry (`src/tools/base.py`, `src/tools/registry.py`), the permission-checked
executor (`src/tools/executor.py`), the conversational agent loop
(`src/agent/core.py`), the subagent factory (`src/agent/subagent.py`), the
task-dispatch tool (`src/tools/implementations/task.py`), and the interactive
extension tools (`exit_plan_mode.py`, `slash_command.py`) together with the
host-side plan-mode callback (`src/cli/interface.py`).

Modelling conventions:
* Python exceptions are modelled with `Except String`: a function that can
  raise returns `Except.error msg` for a raised exception carrying `msg`.
* The external LLM provider is modelled as an oracle `Nat → Except String
  Message` giving the result of the n-th `generate` call (the provider is a
  stateful network client, so its answers are treated as an arbitrary
  sequence, not a function of the input messages).
* Effectful tool bodies (file system, shell) are out of scope of the core and
  are taken as parameters (`ToolEffects`), mirroring the spec's boundary.
* `json.loads` plus keyword binding is taken as a parameter
  `jsonLoads : String → Except String Args` with `Args` an opaque
  representation of a decoded keyword-argument record.
* Host callbacks that only need to be observed are recorded in logs carried in
  the result values; optional callbacks are `Option` function values.
* Python truthiness of optional strings / lists is modelled explicitly
  (`truthyStr`, `truthyList`).
* String literals from the source keep their wording, with quote characters
  and ANSI terminal escape sequences elided.
-/

set_option linter.unusedVariables false

namespace Bob

/-! ## Data model: src/providers/models.py -/

/-- models.py FunctionCall: function call details. -/
structure FunctionCall where
  name : String
  arguments : String
  deriving Repr, DecidableEq

/-- models.py ToolCall: a tool call from the LLM (`type` is the constant
literal "function" and is omitted). -/
structure ToolCall where
  id : String
  function : FunctionCall
  deriving Repr, DecidableEq

/-- models.py Message: unified message format across providers. -/
structure Message where
  role : String
  content : Option String := none
  tool_calls : Option (List ToolCall) := none
  tool_call_id : Option String := none
  name : Option String := none
  deriving Repr, DecidableEq

/-! ## Tool contract: src/tools/base.py and src/workspace/config.py -/

/-- base.py ToolResult: result of executing a tool. -/
structure ToolResult where
  tool_call_id : String
  tool_name : String
  content : String
  is_error : Bool := false
  deriving Repr, DecidableEq

/-- config.py ToolPermissions: three independent boolean flags. -/
structure ToolPermissions where
  allow_file_operations : Bool := false
  allow_shell_commands : Bool := false
  allow_network_access : Bool := false
  deriving Repr, DecidableEq

/-- Python `getattr(permissions, attr, False)`: dynamic attribute lookup on a
ToolPermissions instance by field name, defaulting to False. -/
def permGetattr (p : ToolPermissions) (attr : String) : Bool :=
  if attr = "allow_file_operations" then p.allow_file_operations
  else if attr = "allow_shell_commands" then p.allow_shell_commands
  else if attr = "allow_network_access" then p.allow_network_access
  else false

/-- Opaque representation of a decoded keyword-argument record (the value
`json.loads` produces and the executor splats into the tool). Its structure is
never inspected by the core. -/
abbrev Args := List (String × String)

/-- base.py BaseTool: the tool capability contract. `execute` may raise,
modelled with `Except`. -/
structure Tool where
  name : String
  required_permission : Option String
  execute : Args → Except String String

/-- Python truthiness of `str | None`: None and the empty string are falsy. -/
def truthyStr : Option String → Bool
  | none => false
  | some s => s != ""

/-- Python truthiness of `list | None`: None and the empty list are falsy. -/
def truthyList {α : Type} : Option (List α) → Bool
  | none => false
  | some l => !l.isEmpty

/-! ## Tool registry: src/tools/registry.py -/

/-- registry.py ToolRegistry: a name-keyed mapping with dict semantics
(insertion order preserved; re-registration overwrites in place). -/
structure ToolRegistry where
  tools : List (String × Tool)

/-- registry.py ToolRegistry.register: `self._tools[tool.name] = tool`. -/
def ToolRegistry.register (r : ToolRegistry) (t : Tool) : ToolRegistry :=
  if (r.tools.lookup t.name).isSome then
    { tools := r.tools.map fun p => if p.1 = t.name then (t.name, t) else p }
  else
    { tools := r.tools ++ [(t.name, t)] }

/-- registry.py ToolRegistry.get: `self._tools.get(name)`. -/
def ToolRegistry.get (r : ToolRegistry) (n : String) : Option Tool :=
  r.tools.lookup n

/-! ## Tool executor: src/tools/executor.py -/

/-- executor.py ToolExecutor: registry plus the active permission set. -/
structure ToolExecutor where
  registry : ToolRegistry
  permissions : ToolPermissions

/-- executor.py execute_tool_call, after the permission gate has been passed:
parse arguments (`json.loads`), then run the capability, catching any
exception it raises. -/
def ToolExecutor.dispatchTool (tool_call : ToolCall) (tool : Tool)
    (jsonLoads : String → Except String Args) : ToolResult :=
  match jsonLoads tool_call.function.arguments with
  | .error e =>
      { tool_call_id := tool_call.id, tool_name := tool_call.function.name,
        content := "Error: Invalid JSON arguments: " ++ e, is_error := true }
  | .ok args =>
      match tool.execute args with
      | .ok result =>
          { tool_call_id := tool_call.id, tool_name := tool_call.function.name,
            content := result, is_error := false }
      | .error e =>
          { tool_call_id := tool_call.id, tool_name := tool_call.function.name,
            content := "Error executing tool: " ++ e, is_error := true }

/-- executor.py ToolExecutor.execute_tool_call: execute a single tool call with
permission check. Unknown tool, denied permission, malformed arguments and a
raising capability all become error ToolResults; the function itself is total
(never raises). -/
def ToolExecutor.execute_tool_call (ex : ToolExecutor)
    (jsonLoads : String → Except String Args) (tool_call : ToolCall) : ToolResult :=
  match ex.registry.get tool_call.function.name with
  | none =>
      { tool_call_id := tool_call.id, tool_name := tool_call.function.name,
        content := "Error: Unknown tool " ++ tool_call.function.name, is_error := true }
  | some tool =>
      match tool.required_permission with
      | some perm =>
          if perm != "" then
            if !(permGetattr ex.permissions perm) then
              { tool_call_id := tool_call.id, tool_name := tool_call.function.name,
                content := "Error: Permission denied. This tool requires " ++ perm
                  ++ " to be enabled in workspace settings.", is_error := true }
            else ToolExecutor.dispatchTool tool_call tool jsonLoads
          else ToolExecutor.dispatchTool tool_call tool jsonLoads
      | none => ToolExecutor.dispatchTool tool_call tool jsonLoads

/-- executor.py ToolExecutor.execute_tool_calls: `asyncio.gather` over the
batch; results are collected in the original call order. -/
def ToolExecutor.execute_tool_calls (ex : ToolExecutor)
    (jsonLoads : String → Except String Args) (tool_calls : List ToolCall) :
    List ToolResult :=
  tool_calls.map (ex.execute_tool_call jsonLoads)

/-! ## Conversational agent: src/agent/core.py -/

/-- Oracle model of the external Provider: the n-th call (0-indexed) of
`generate` either returns a Message or raises a provider error. -/
abbrev Provider := Nat → Except String Message

/-- prompts/system.py SYSTEM_PROMPT_BASIC (prompt text content is out of core
scope; only its identity matters here). -/
def SYSTEM_PROMPT_BASIC : String := "SYSTEM_PROMPT_BASIC"

/-- prompts/system.py SYSTEM_PROMPT_EXPLORE. -/
def SYSTEM_PROMPT_EXPLORE : String := "SYSTEM_PROMPT_EXPLORE"

/-- prompts/system.py SYSTEM_PROMPT_PLAN. -/
def SYSTEM_PROMPT_PLAN : String := "SYSTEM_PROMPT_PLAN"

/-- core.py CodeAgent: provider, prompt, optional executor wiring, flags.
The optional `on_conversation_update` and `on_tool_call` callbacks are
modelled by their presence; invocations are recorded in result logs. -/
structure CodeAgent where
  provider : Provider
  system_prompt : String
  on_conversation_update : Bool
  on_tool_call : Bool
  is_subagent : Bool
  tool_registry : Option ToolRegistry
  tool_executor : Option ToolExecutor

/-- core.py CodeAgent.__init__: the executor exists exactly when both a
registry and a permission set are passed (both are truthy Python objects
whenever not None). -/
def mkCodeAgent (provider : Provider) (system_prompt : Option String)
    (on_conversation_update : Bool) (tool_registry : Option ToolRegistry)
    (tool_permissions : Option ToolPermissions) (on_tool_call : Bool)
    (is_subagent : Bool) : CodeAgent :=
  { provider := provider
    system_prompt := system_prompt.getD SYSTEM_PROMPT_BASIC
    on_conversation_update := on_conversation_update
    on_tool_call := on_tool_call
    is_subagent := is_subagent
    tool_registry := tool_registry
    tool_executor :=
      match tool_registry, tool_permissions with
      | some r, some p => some { registry := r, permissions := p }
      | _, _ => none }

/-- core.py chat loop body: the tool-role Message appended for one ToolResult. -/
def toolResultMessage (r : ToolResult) : Message :=
  { role := "tool", content := some r.content,
    tool_call_id := some r.tool_call_id, name := some r.tool_name }

/-- core.py CodeAgent.chat, the `while iteration < max_iterations` loop.
Returns the final history, the number of provider calls made, and
`final_response` (`none` when the cap was exhausted). A provider exception
propagates (`Except.error`). -/
def chatLoop (agent : CodeAgent) (jsonLoads : String → Except String Args) :
    Nat → List Message → Nat → Except String (List Message × Nat × Option String)
  | 0, hist, calls => .ok (hist, calls, none)
  | fuel + 1, hist, calls =>
    match agent.provider calls with
    | .error e => .error e
    | .ok response =>
      let hist2 := hist ++ [response]
      match agent.tool_executor, response.tool_calls with
      | some ex, some tcs =>
        if tcs.isEmpty then
          .ok (hist2, calls + 1, some (response.content.getD ""))
        else
          let results := ex.execute_tool_calls jsonLoads tcs
          let hist3 := hist2 ++ results.map toolResultMessage
          chatLoop agent jsonLoads fuel hist3 (calls + 1)
      | _, _ => .ok (hist2, calls + 1, some (response.content.getD ""))

/-- Observable outcome of one CodeAgent.chat call: the final conversation
history, the number of provider calls, the Python return value (which is
`None` only on the degenerate path where the last history entry has no
content), and the snapshots passed to `on_conversation_update`. -/
structure ChatResult where
  history : List Message
  provider_calls : Nat
  response : Option String
  update_log : List (List Message)
  deriving Repr, DecidableEq

/-- core.py CodeAgent.chat: append the user message, run the agentic loop,
fall back to the last history entry when the cap is exhausted, then fire the
save callback once. `history` is the agent's conversation history at entry. -/
def CodeAgent.chat (agent : CodeAgent) (jsonLoads : String → Except String Args)
    (history : List Message) (user_input : String) (max_iterations : Nat) :
    Except String ChatResult :=
  let hist0 := history ++ [{ role := "user", content := some user_input }]
  match chatLoop agent jsonLoads max_iterations hist0 0 with
  | .error e => .error e
  | .ok (hist, calls, finalOpt) =>
    let final : Option String :=
      match finalOpt with
      | some s => some s
      | none =>
        match hist.getLast? with
        | some m => m.content
        | none => some "Error: Max iterations reached without response"
    .ok { history := hist, provider_calls := calls, response := final,
          update_log := if agent.on_conversation_update then [hist] else [] }

/-- Observable outcome of one CodeAgent.stream_chat call. -/
structure StreamChatResult where
  history : List Message
  update_log : List (List Message)
  deriving Repr, DecidableEq

/-- core.py CodeAgent.stream_chat: append the user message, accumulate the
streamed fragments, append one assistant message with the concatenation, then
fire the save callback once. `chunks` is the fragment sequence the provider
stream yields. -/
def CodeAgent.stream_chat (agent : CodeAgent) (history : List Message)
    (user_input : String) (chunks : List String) : StreamChatResult :=
  let hist0 := history ++ [{ role := "user", content := some user_input }]
  let full_response := String.join chunks
  let hist := hist0 ++ [{ role := "assistant", content := some full_response }]
  { history := hist,
    update_log := if agent.on_conversation_update then [hist] else [] }

/-! ## Concrete tool capabilities (names and permission requirements from
src/tools/implementations/; the effectful bodies are external to the core and
taken as parameters) -/

/-- The externally-implemented effectful tool bodies (file system / shell). -/
structure ToolEffects where
  readBody : Args → Except String String
  bashBody : Nat → Args → Except String String
  writeBody : Args → Except String String
  editBody : Args → Except String String

/-- implementations/read.py ReadTool: name "read", requires
allow_file_operations. -/
def ReadTool (eff : ToolEffects) : Tool :=
  { name := "read", required_permission := some "allow_file_operations",
    execute := eff.readBody }

/-- implementations/bash.py BashTool: name "bash", requires
allow_shell_commands; constructed with a timeout (default 30). -/
def BashTool (eff : ToolEffects) (timeout : Nat) : Tool :=
  { name := "bash", required_permission := some "allow_shell_commands",
    execute := eff.bashBody timeout }

/-- implementations/write.py WriteTool: name "write", requires
allow_file_operations. -/
def WriteTool (eff : ToolEffects) : Tool :=
  { name := "write", required_permission := some "allow_file_operations",
    execute := eff.writeBody }

/-- implementations/edit.py EditTool: name "edit", requires
allow_file_operations (the read_tool wiring only affects the effectful body). -/
def EditTool (eff : ToolEffects) : Tool :=
  { name := "edit", required_permission := some "allow_file_operations",
    execute := eff.editBody }

/-- implementations/task.py TaskTool as a registry capability: name "task",
`required_permission` returns None ("Task tool itself doesn't require
permission"). -/
def TaskToolCapability (executeBody : Args → Except String String) : Tool :=
  { name := "task", required_permission := none, execute := executeBody }

/-! ## Subagent factory: src/agent/subagent.py -/

/-- subagent.py SubagentFactory._create_explore_agent: read-only tool subset
(read, bash with timeout 10), permissions (file yes, shell yes, network no),
is_subagent = True, max_iterations = 5. No on_conversation_update is passed. -/
def createExploreAgent (eff : ToolEffects) (provider : Provider)
    (on_tool_call : Bool) : CodeAgent × Nat :=
  let tool_registry := ((ToolRegistry.mk []).register (ReadTool eff)).register
    (BashTool eff 10)
  let permissions : ToolPermissions :=
    { allow_file_operations := true, allow_shell_commands := true,
      allow_network_access := false }
  let agent := mkCodeAgent provider (some SYSTEM_PROMPT_EXPLORE) false
    (some tool_registry) (some permissions) on_tool_call true
  (agent, 5)

/-- subagent.py SubagentFactory._create_plan_agent: full editing tool subset
(read, write, bash default timeout, edit), same permission shape,
is_subagent = True, max_iterations = 15. -/
def createPlanAgent (eff : ToolEffects) (provider : Provider)
    (on_tool_call : Bool) : CodeAgent × Nat :=
  let tool_registry := (((((ToolRegistry.mk []).register (ReadTool eff)).register
    (WriteTool eff)).register (BashTool eff 30)).register (EditTool eff))
  let permissions : ToolPermissions :=
    { allow_file_operations := true, allow_shell_commands := true,
      allow_network_access := false }
  let agent := mkCodeAgent provider (some SYSTEM_PROMPT_PLAN) false
    (some tool_registry) (some permissions) on_tool_call true
  (agent, 15)

/-- subagent.py SubagentFactory.create_subagent: dispatch on the subagent
kind; an unknown kind raises ValueError (modelled as `Except.error`). -/
def SubagentFactory.create_subagent (eff : ToolEffects) (provider : Provider)
    (subagent_type : String) (on_tool_call : Bool) :
    Except String (CodeAgent × Nat) :=
  if subagent_type = "explore" then .ok (createExploreAgent eff provider on_tool_call)
  else if subagent_type = "plan" then .ok (createPlanAgent eff provider on_tool_call)
  else .error ("Unknown subagent type: " ++ subagent_type)

/-! ## Task dispatch tool behavior: src/tools/implementations/task.py -/

/-- Lifecycle events TaskTool emits to the host via on_subagent_event. -/
inductive SubagentEvent where
  | start (subagent_type : String) (prompt : String)
  | toolCallRelay (calls : List ToolCall) (results : Option (List ToolResult))
  | complete (subagent_type : String) (result : Option String)
  | error (subagent_type : String) (msg : String)
  deriving Repr, DecidableEq

/-- task.py TaskTool instance state: injected provider factory, the
recursion-guard flag, and the optional (possibly raising) host event
callback. -/
structure TaskToolState where
  provider_factory : Option String → Except String Provider
  is_subagent : Bool
  on_subagent_event : Option (SubagentEvent → Except String Unit)

/-- Emit one lifecycle event if the callback is wired: the callback outcome
plus the list of invocations actually made. -/
def taskEmit (t : TaskToolState) (ev : SubagentEvent) :
    Except String Unit × List SubagentEvent :=
  match t.on_subagent_event with
  | none => (.ok (), [])
  | some cb => (cb ev, [ev])

/-- task.py TaskTool.execute, `except Exception` branch: build the error
message, emit the error event if wired (a raising callback propagates!), and
return the message. -/
def taskHandleException (t : TaskToolState) (subagent_type : String)
    (e : String) : Except String (Option String) × List SubagentEvent :=
  let error_msg := "Error executing " ++ subagent_type ++ " subagent: " ++ e
  match t.on_subagent_event with
  | none => (.ok (some error_msg), [])
  | some cb =>
    match cb (.error subagent_type error_msg) with
    | .ok _ => (.ok (some error_msg), [SubagentEvent.error subagent_type error_msg])
    | .error e2 => (.error e2, [SubagentEvent.error subagent_type error_msg])

/-- The control transfer into the `except Exception` branch of
task.py TaskTool.execute: the handler outcome, appended to the events already
emitted inside the `try` block. -/
def taskFail (t : TaskToolState) (subagent_type : String) (e : String)
    (log : List SubagentEvent) : Except String (Option String) × List SubagentEvent :=
  ((taskHandleException t subagent_type e).fst,
   log ++ (taskHandleException t subagent_type e).snd)

/-- task.py TaskTool.execute, `try` block: emit start, build a provider (Python
truthiness on the model override), build the subagent (on_tool_call is always
wired to _wrap_on_tool_call), run its chat, emit complete, return the result.
Any raising step falls to the except branch (`taskFail`). -/
def taskTryBlock (t : TaskToolState) (eff : ToolEffects)
    (jsonLoads : String → Except String Args) (task_prompt : String)
    (subagent_type : String) (model : Option String) :
    Except String (Option String) × List SubagentEvent :=
  let start := taskEmit t (.start subagent_type task_prompt)
  match start.fst with
  | .error e => taskFail t subagent_type e start.snd
  | .ok _ =>
    match t.provider_factory (if truthyStr model then model else none) with
    | .error e => taskFail t subagent_type e start.snd
    | .ok provider =>
      match SubagentFactory.create_subagent eff provider subagent_type true with
      | .error e => taskFail t subagent_type e start.snd
      | .ok (subagent, max_iterations) =>
        match subagent.chat jsonLoads [] task_prompt max_iterations with
        | .error e => taskFail t subagent_type e start.snd
        | .ok res =>
          let comp := taskEmit t (.complete subagent_type res.response)
          match comp.fst with
          | .error e => taskFail t subagent_type e (start.snd ++ comp.snd)
          | .ok _ => (.ok res.response, start.snd ++ comp.snd)

/-- task.py TaskTool.execute: recursion guard, subagent-type validation, then
the try block. Returns the Python return value (`Except.error` models an
exception escaping the call) together with the host event invocations. -/
def TaskTool.execute (t : TaskToolState) (eff : ToolEffects)
    (jsonLoads : String → Except String Args) (task_prompt : String)
    (subagent_type : String) (model : Option String) :
    Except String (Option String) × List SubagentEvent :=
  if t.is_subagent then
    (.ok (some ("Error: Subagents cannot spawn additional subagents. "
      ++ "Please complete this task directly.")), [])
  else if !(subagent_type = "explore" || subagent_type = "plan") then
    (.ok (some ("Error: Invalid subagent_type " ++ subagent_type
      ++ ". Must be explore or plan.")), [])
  else
    taskTryBlock t eff jsonLoads task_prompt subagent_type model

/-! ## Exit-plan-mode: src/tools/implementations/exit_plan_mode.py and the
host callback src/cli/interface.py BobInterface._on_exit_plan_mode -/

/-- The plan-mode-relevant slice of BobInterface state: the `is_in_plan_mode`
flag and the terminal output appended so far. -/
structure PlanHostState where
  is_in_plan_mode : Bool
  output : List String
  deriving Repr, DecidableEq

/-- interface.py _on_exit_plan_mode narration appended on a real transition
(ANSI escape sequences and separator lines elided). -/
def exitPlanNarration : String :=
  "Plan mode exited. Transitioning to implementation."

/-- interface.py BobInterface._on_exit_plan_mode: if not in plan mode, return
a warning without touching state; otherwise clear the flag, append the
narration, and return the success message. -/
def BobInterface.on_exit_plan_mode (st : PlanHostState) :
    PlanHostState × String :=
  if !st.is_in_plan_mode then
    (st, "Warning: Not currently in plan mode")
  else
    ({ is_in_plan_mode := false, output := st.output ++ [exitPlanNarration] },
     "Plan mode exited successfully. Ready to implement.")

/-- Observable outcome of ExitPlanModeTool.execute: the (possibly updated)
host state, the returned text, and how many times the host callback was
invoked. -/
structure ExitPlanOutcome where
  state : PlanHostState
  result : String
  callback_invocations : Nat
  deriving Repr, DecidableEq

/-- exit_plan_mode.py ExitPlanModeTool.execute: missing callback gives an
error string; otherwise the callback is invoked unconditionally and its result
returned, with a raising callback caught and converted to an error string. -/
def ExitPlanModeTool.execute
    (cb : Option (PlanHostState → Except String (PlanHostState × String)))
    (st : PlanHostState) : ExitPlanOutcome :=
  match cb with
  | none =>
    { state := st,
      result := "Error: ExitPlanMode tool not properly initialized (no callback provided)",
      callback_invocations := 0 }
  | some f =>
    match f st with
    | .ok (st2, r) => { state := st2, result := r, callback_invocations := 1 }
    | .error e =>
      { state := st, result := "Error exiting plan mode: " ++ e,
        callback_invocations := 1 }

/-- The exit-plan-mode capability as wired in the CLI: the tool with
BobInterface._on_exit_plan_mode as its callback. -/
def exitPlanModeWired : PlanHostState → Except String (PlanHostState × String) :=
  fun st => .ok (BobInterface.on_exit_plan_mode st)

/-! ## Slash-command tool: src/tools/implementations/slash_command.py -/

/-- Observable outcome of SlashCommandTool.execute: returned text and the
number of handler invocations. -/
structure SlashOutcome where
  result : String
  handler_invocations : Nat
  deriving Repr, DecidableEq

/-- Python `result or "Command executed successfully (no output)"`: None and
the empty string are replaced by the fixed notice. -/
def slashResultOr (r : Option String) : String :=
  match r with
  | none => "Command executed successfully (no output)"
  | some s => if s = "" then "Command executed successfully (no output)" else s

/-- Python `command.startswith("/")` for the one-character prefix: the first
character is a slash. -/
def startsWithSlash (s : String) : Bool :=
  match s.data with
  | [] => false
  | c :: _ => c = '/'

/-- slash_command.py SlashCommandTool.execute: reject the empty command and
commands not starting with a slash before consulting the handler; a missing
handler is an error; a raising handler is caught; a falsy handler result is
replaced by the fixed success notice. -/
def SlashCommandTool.execute
    (command_handler : Option (String → Except String (Option String)))
    (command : String) : SlashOutcome :=
  if command = "" then
    { result := "Error: Command cannot be empty", handler_invocations := 0 }
  else if !(startsWithSlash command) then
    { result := "Error: Slash commands must start with /. Did you mean /"
        ++ command ++ "?", handler_invocations := 0 }
  else
    match command_handler with
    | none =>
      { result := "Error: SlashCommand tool not properly initialized (no command handler provided)",
        handler_invocations := 0 }
    | some handler =>
      match handler command with
      | .ok r => { result := slashResultOr r, handler_invocations := 1 }
      | .error e =>
        { result := "Error executing command " ++ command ++ ": " ++ e,
          handler_invocations := 1 }

/-! ## Statement helpers -/

/-- The permission gate of executor.py passes for a tool: either no permission
is required (None or empty string, both falsy in Python), or the active
permission set grants the named flag. -/
def permissionPasses (ex : ToolExecutor) (tool : Tool) : Bool :=
  match tool.required_permission with
  | none => true
  | some perm => if perm != "" then permGetattr ex.permissions perm else true

/-- The exact shape of the message suffix the chat loop of core.py appends
after the initial user message: either nothing (cap exhausted with fuel 0), a
single terminating assistant message (no executable tool calls), or an
assistant message followed by its full tool-result batch and a recursively
shaped remainder. -/
inductive TraceShape (agent : CodeAgent) (jl : String → Except String Args) :
    Nat → List Message → Prop where
  | empty (calls : Nat) : TraceShape agent jl calls []
  | final (calls : Nat) (r : Message) (hr : agent.provider calls = .ok r)
      (hstop : ∀ ex tcs, agent.tool_executor = some ex →
        r.tool_calls = some tcs → tcs.isEmpty = true) :
      TraceShape agent jl calls [r]
  | batch (calls : Nat) (r : Message) (ex : ToolExecutor) (tcs : List ToolCall)
      (rest : List Message)
      (hr : agent.provider calls = .ok r) (hex : agent.tool_executor = some ex)
      (htc : r.tool_calls = some tcs) (hne : tcs.isEmpty = false)
      (hrest : TraceShape agent jl (calls + 1) rest) :
      TraceShape agent jl calls
        (r :: ((ex.execute_tool_calls jl tcs).map toolResultMessage ++ rest))

/-! ## Concrete fixtures for witnesses and counterexamples -/

/-- Tool effects stub: every effectful body raises. -/
def noEffects : ToolEffects :=
  { readBody := fun _ => .error "io unavailable",
    bashBody := fun _ _ => .error "io unavailable",
    writeBody := fun _ => .error "io unavailable",
    editBody := fun _ => .error "io unavailable" }

/-- A json.loads stub: the literal "BAD" fails to decode, everything else
decodes to an empty keyword record. -/
def jlOkEmpty : String → Except String Args := fun s =>
  if s = "BAD" then .error "Expecting value" else .ok []

/-- A provider stub that always raises. -/
def provStub : Provider := fun _ => .error "ProviderError"

/-- All-false permission set (the pydantic defaults). -/
def permsOffW : ToolPermissions :=
  { allow_file_operations := false, allow_shell_commands := false,
    allow_network_access := false }

/-- A shell tool fixture requiring allow_shell_commands. -/
def toolShellW : Tool :=
  { name := "sh", required_permission := some "allow_shell_commands",
    execute := fun _ => .ok "ran" }

/-- A tool fixture whose execute raises. -/
def toolBoomW : Tool :=
  { name := "boom", required_permission := none,
    execute := fun _ => .error "division by zero" }

/-- Registry fixture holding the two tools above. -/
def regW : ToolRegistry := ((ToolRegistry.mk []).register toolShellW).register toolBoomW

/-- Executor fixture: the registry above under all-false permissions. -/
def exW : ToolExecutor := { registry := regW, permissions := permsOffW }

/-- An empty registry. -/
def regEmptyW : ToolRegistry := ToolRegistry.mk []

/-- A concrete tool call against the shell tool fixture. -/
def tcShellW : ToolCall := { id := "c1", function := { name := "sh", arguments := "{}" } }

/-- A concrete tool call naming no registered tool. -/
def tcUnknownW : ToolCall := { id := "c2", function := { name := "nope", arguments := "{}" } }

/-- A concrete tool call with undecodable arguments. -/
def tcBadJsonW : ToolCall := { id := "c3", function := { name := "boom", arguments := "BAD" } }

/-- A concrete tool call whose capability raises. -/
def tcBoomW : ToolCall := { id := "c4", function := { name := "boom", arguments := "{}" } }

/-- The user message of the concrete chat runs. -/
def userHiW : Message := { role := "user", content := some "hi" }

/-- First provider answer of the concrete chat run: one tool call. -/
def msgCallW : Message :=
  { role := "assistant", content := some "calling",
    tool_calls := some [{ id := "call_1", function := { name := "sh", arguments := "{}" } }] }

/-- Second provider answer of the concrete chat run: plain text, no calls. -/
def msgDoneW : Message := { role := "assistant", content := some "done" }

/-- Provider fixture: a tool call on the first generate call, then text. -/
def provW : Provider := fun n => if n = 0 then .ok msgCallW else .ok msgDoneW

/-- Agent fixture for the concrete chat run: empty registry (the dispatched
call becomes an unknown-tool error result, still a full batch), save callback
wired. -/
def agentW : CodeAgent :=
  mkCodeAgent provW none true (some regEmptyW) (some permsOffW) false false

/-- The tool-role message the concrete run appends for its single batch. -/
def toolMsgW : Message :=
  { role := "tool", content := some "Error: Unknown tool sh",
    tool_call_id := some "call_1", name := some "sh" }

/-- Final history of the concrete run of `agentW.chat jlOkEmpty [] "hi" 3`. -/
def histFullW : List Message := [userHiW, msgCallW, toolMsgW, msgDoneW]

/-- History snapshot right after the first tool-result batch of that run. -/
def hist3W : List Message := [userHiW, msgCallW, toolMsgW]

/-- The full observable outcome of that run. -/
def resW : ChatResult :=
  { history := histFullW, provider_calls := 2, response := some "done",
    update_log := [histFullW] }

/-- Provider fixture that requests a tool call on every generate call. -/
def provLoopW : Provider := fun _ => .ok msgCallW

/-- Agent fixture for the iteration-cap run (no save callback). -/
def agentLoopW : CodeAgent :=
  mkCodeAgent provLoopW none false (some regEmptyW) (some permsOffW) false false

/-- Provider fixture that always answers plain text. -/
def provDoneW : Provider := fun _ => .ok msgDoneW

/-- TaskTool fixture whose host event callback raises on every invocation. -/
def tBadW : TaskToolState :=
  { provider_factory := fun _ => .error "no provider",
    is_subagent := false,
    on_subagent_event := some (fun _ => .error "host crashed") }

/-- TaskTool fixture with a well-behaved host callback and a working provider
factory. -/
def tGoodW : TaskToolState :=
  { provider_factory := fun _ => .ok provDoneW,
    is_subagent := false,
    on_subagent_event := some (fun _ => .ok ()) }

/-- Outcome of the explore subagent chat spawned by `tGoodW` on prompt "p". -/
def resDoneW : ChatResult :=
  { history := [{ role := "user", content := some "p" }, msgDoneW],
    provider_calls := 1, response := some "done", update_log := [] }

/-- Host state fixture: plan mode inactive, no output yet. -/
def planStateOffW : PlanHostState := { is_in_plan_mode := false, output := [] }

/-- Slash-command handler fixture returning an empty string. -/
def slashHandlerEmptyW : String → Except String (Option String) := fun _ => .ok (some "")

/-- Slash-command handler fixture returning non-empty text. -/
def slashHandlerOkW : String → Except String (Option String) := fun _ => .ok (some "switched")

/-- A task-dispatch body fixture. -/
def taskBodyW : Args → Except String String := fun _ => .ok "done"

/-- A concrete tool call against the task tool. -/
def taskTcW : ToolCall := { id := "c9", function := { name := "task", arguments := "{}" } }

/-! ## Helper lemmas about the executor -/

lemma execute_tool_call_id (ex : ToolExecutor) (jl : String → Except String Args)
    (tc : ToolCall) : (ex.execute_tool_call jl tc).tool_call_id = tc.id := by
  unfold ToolExecutor.execute_tool_call ToolExecutor.dispatchTool
  repeat' split
  all_goals rfl

lemma execute_tool_call_denied (ex : ToolExecutor) (jl : String → Except String Args)
    (tc : ToolCall) (tool : Tool) (perm : String)
    (hget : ex.registry.get tc.function.name = some tool)
    (hperm : tool.required_permission = some perm)
    (hne : perm ≠ "")
    (hdenied : permGetattr ex.permissions perm = false) :
    ex.execute_tool_call jl tc =
      { tool_call_id := tc.id, tool_name := tc.function.name,
        content := "Error: Permission denied. This tool requires " ++ perm
          ++ " to be enabled in workspace settings.", is_error := true } := by
  simp only [ToolExecutor.execute_tool_call, hget, hperm]
  simp [bne_iff_ne, hne, hdenied]

lemma execute_tool_call_passes (ex : ToolExecutor) (jl : String → Except String Args)
    (tc : ToolCall) (tool : Tool)
    (hget : ex.registry.get tc.function.name = some tool)
    (hpass : permissionPasses ex tool = true) :
    ex.execute_tool_call jl tc = ToolExecutor.dispatchTool tc tool jl := by
  unfold permissionPasses at hpass
  rcases hrp : tool.required_permission with _ | perm
  · simp only [ToolExecutor.execute_tool_call, hget, hrp]
  · rw [hrp] at hpass
    simp only [ToolExecutor.execute_tool_call, hget, hrp]
    by_cases hne : perm = ""
    · simp [hne]
    · simp only [bne_iff_ne, ne_eq, hne, not_false_eq_true, ite_true] at hpass
      simp [bne_iff_ne, hne, hpass]

/-! ## C1 -/

/-- C1: for every defined subagent kind (explore and plan) and for every
provider and callback argument, the agent built by
SubagentFactory.create_subagent has is_subagent = true and its tool registry
does not contain the task-dispatch capability (no entry named "task"); both
facts hold of the constructed value itself, i.e. at construction time. -/
theorem create_subagent_no_task_capability (eff : ToolEffects)
    (provider : Provider) (on_tool_call : Bool) (kind : String)
    (hkind : kind = "explore" ∨ kind = "plan") :
    ∃ p : CodeAgent × Nat,
      SubagentFactory.create_subagent eff provider kind on_tool_call = .ok p ∧
      p.1.is_subagent = true ∧
      ∃ r, p.1.tool_registry = some r ∧ r.get "task" = none := by
  rcases hkind with h | h <;> subst h
  · exact ⟨createExploreAgent eff provider on_tool_call, rfl, rfl, _, rfl, rfl⟩
  · exact ⟨createPlanAgent eff provider on_tool_call, rfl, rfl, _, rfl, rfl⟩

/-- C1 witness: the explore kind with concrete provider and callback. -/
theorem create_subagent_no_task_capability_witness :
    ∃ p : CodeAgent × Nat,
      SubagentFactory.create_subagent noEffects provStub "explore" false = .ok p ∧
      p.1.is_subagent = true ∧
      ∃ r, p.1.tool_registry = some r ∧ r.get "task" = none :=
  create_subagent_no_task_capability noEffects provStub false "explore" (Or.inl rfl)

/-! ## C3 -/

/-- C3: a tool whose required_permission names a PermissionSet flag, dispatched
under a permission set where that flag is false, yields the permission-denied
error ToolResult with is_error = true. The right-hand side is a constant that
mentions neither the jsonLoads argument parser nor the capability's execute
function, and the statement holds for every such parser and every tool body:
the arguments are never parsed and execute is never invoked. -/
theorem permission_denied_blocks_tool (ex : ToolExecutor)
    (jl : String → Except String Args) (tc : ToolCall) (tool : Tool) (perm : String)
    (hget : ex.registry.get tc.function.name = some tool)
    (hperm : tool.required_permission = some perm)
    (hflag : perm ∈ ["allow_file_operations", "allow_shell_commands",
      "allow_network_access"])
    (hdenied : permGetattr ex.permissions perm = false) :
    ex.execute_tool_call jl tc =
      { tool_call_id := tc.id, tool_name := tc.function.name,
        content := "Error: Permission denied. This tool requires " ++ perm
          ++ " to be enabled in workspace settings.", is_error := true } := by
  have hne : perm ≠ "" := by
    simp only [List.mem_cons, List.not_mem_nil, or_false] at hflag
    rcases hflag with rfl | rfl | rfl <;> decide
  exact execute_tool_call_denied ex jl tc tool perm hget hperm hne hdenied

/-- C3 witness: the shell tool fixture under all-false permissions. -/
theorem permission_denied_blocks_tool_witness :
    exW.execute_tool_call jlOkEmpty tcShellW =
      { tool_call_id := "c1", tool_name := "sh",
        content := "Error: Permission denied. This tool requires "
          ++ "allow_shell_commands" ++ " to be enabled in workspace settings.",
        is_error := true } :=
  permission_denied_blocks_tool exW jlOkEmpty tcShellW toolShellW
    "allow_shell_commands" rfl rfl (by simp) rfl

/-! ## C2 -/

/-- C2: execute_tool_call is a total function into ToolResult (exceptions are
modelled by Except, and its type is ToolResult, not Except _ ToolResult: it
never raises). Each failure mode — unknown tool, denied permission, malformed
JSON arguments, a raising capability — yields a ToolResult with
is_error = true carrying a failure description, and execute_tool_calls
returns one ToolResult per call, in order (ids aligned), and never raises. -/
theorem execute_tool_call_error_channel (ex : ToolExecutor)
    (jl : String → Except String Args) (tc : ToolCall) (tcs : List ToolCall) :
    (ex.registry.get tc.function.name = none →
      ex.execute_tool_call jl tc =
        { tool_call_id := tc.id, tool_name := tc.function.name,
          content := "Error: Unknown tool " ++ tc.function.name,
          is_error := true }) ∧
    (∀ tool perm, ex.registry.get tc.function.name = some tool →
      tool.required_permission = some perm → perm ≠ "" →
      permGetattr ex.permissions perm = false →
      (ex.execute_tool_call jl tc).is_error = true) ∧
    (∀ tool e, ex.registry.get tc.function.name = some tool →
      permissionPasses ex tool = true → jl tc.function.arguments = .error e →
      ex.execute_tool_call jl tc =
        { tool_call_id := tc.id, tool_name := tc.function.name,
          content := "Error: Invalid JSON arguments: " ++ e,
          is_error := true }) ∧
    (∀ tool args e, ex.registry.get tc.function.name = some tool →
      permissionPasses ex tool = true → jl tc.function.arguments = .ok args →
      tool.execute args = .error e →
      ex.execute_tool_call jl tc =
        { tool_call_id := tc.id, tool_name := tc.function.name,
          content := "Error executing tool: " ++ e, is_error := true }) ∧
    (ex.execute_tool_calls jl tcs).length = tcs.length ∧
    (ex.execute_tool_calls jl tcs).map ToolResult.tool_call_id
      = tcs.map ToolCall.id := by
  refine ⟨?_, ?_, ?_, ?_, ?_, ?_⟩
  · intro h
    simp only [ToolExecutor.execute_tool_call, h]
  · intro tool perm hget hperm hne hdenied
    rw [execute_tool_call_denied ex jl tc tool perm hget hperm hne hdenied]
  · intro tool e hget hpass hjl
    rw [execute_tool_call_passes ex jl tc tool hget hpass]
    simp only [ToolExecutor.dispatchTool, hjl]
  · intro tool args e hget hpass hjl hexe
    rw [execute_tool_call_passes ex jl tc tool hget hpass]
    simp only [ToolExecutor.dispatchTool, hjl, hexe]
  · simp [ToolExecutor.execute_tool_calls]
  · unfold ToolExecutor.execute_tool_calls
    rw [List.map_map]
    exact List.map_congr_left fun a _ => execute_tool_call_id ex jl a

/-- C2 witness: the four failure modes and the batch shape at concrete
inputs. -/
theorem execute_tool_call_error_channel_witness :
    (exW.execute_tool_call jlOkEmpty tcUnknownW =
      { tool_call_id := "c2", tool_name := "nope",
        content := "Error: Unknown tool " ++ "nope", is_error := true }) ∧
    (exW.execute_tool_call jlOkEmpty tcShellW).is_error = true ∧
    (exW.execute_tool_call jlOkEmpty tcBadJsonW =
      { tool_call_id := "c3", tool_name := "boom",
        content := "Error: Invalid JSON arguments: " ++ "Expecting value",
        is_error := true }) ∧
    (exW.execute_tool_call jlOkEmpty tcBoomW =
      { tool_call_id := "c4", tool_name := "boom",
        content := "Error executing tool: " ++ "division by zero",
        is_error := true }) ∧
    (exW.execute_tool_calls jlOkEmpty [tcShellW, tcBoomW]).length = 2 ∧
    (exW.execute_tool_calls jlOkEmpty [tcShellW, tcBoomW]).map
      ToolResult.tool_call_id = ["c1", "c4"] := by
  refine ⟨?_, ?_, ?_, ?_, ?_, ?_⟩
  · exact (execute_tool_call_error_channel exW jlOkEmpty tcUnknownW []).1 rfl
  · exact (execute_tool_call_error_channel exW jlOkEmpty tcShellW []).2.1
      toolShellW "allow_shell_commands" rfl rfl (by decide) rfl
  · exact (execute_tool_call_error_channel exW jlOkEmpty tcBadJsonW []).2.2.1
      toolBoomW "Expecting value" rfl rfl rfl
  · exact (execute_tool_call_error_channel exW jlOkEmpty tcBoomW []).2.2.2.1
      toolBoomW [] "division by zero" rfl rfl rfl rfl
  · exact (execute_tool_call_error_channel exW jlOkEmpty tcShellW
      [tcShellW, tcBoomW]).2.2.2.2.1
  · exact (execute_tool_call_error_channel exW jlOkEmpty tcShellW
      [tcShellW, tcBoomW]).2.2.2.2.2

/-! ## C10 -/

/-- C10: the task-dispatch capability's required_permission is None, so the
executor dispatches it under every PermissionSet (including the all-false
one); and every subagent either kind builds runs under the fixed permission
set (file = true, shell = true, network = false), regardless of the parent
executor's permissions (which do not occur in the construction at all): task
dispatch elevates effective file and shell access beyond the host-configured
permission set. -/
theorem task_dispatch_permission_bypass
    (f : Args → Except String String) (perms : ToolPermissions)
    (jl : String → Except String Args) (tc : ToolCall) (args : Args) (s : String)
    (eff : ToolEffects) (provider : Provider) (b : Bool) (kind : String) :
    (TaskToolCapability f).required_permission = none ∧
    (tc.function.name = "task" → jl tc.function.arguments = .ok args →
      f args = .ok s →
      ToolExecutor.execute_tool_call
        { registry := (ToolRegistry.mk []).register (TaskToolCapability f),
          permissions := perms } jl tc =
        { tool_call_id := tc.id, tool_name := tc.function.name, content := s,
          is_error := false }) ∧
    (kind = "explore" ∨ kind = "plan" →
      ∃ p : CodeAgent × Nat,
        SubagentFactory.create_subagent eff provider kind b = .ok p ∧
        ∃ ex2, p.1.tool_executor = some ex2 ∧
          ex2.permissions =
            { allow_file_operations := true, allow_shell_commands := true,
              allow_network_access := false }) := by
  refine ⟨rfl, ?_, ?_⟩
  · intro hname hjl hf
    have hget : (ToolExecutor.mk ((ToolRegistry.mk []).register (TaskToolCapability f))
        perms).registry.get tc.function.name = some (TaskToolCapability f) := by
      rw [hname]; rfl
    rw [execute_tool_call_passes _ jl tc _ hget rfl]
    simp only [ToolExecutor.dispatchTool, TaskToolCapability, hjl, hf]
  · intro hkind
    rcases hkind with h | h <;> subst h
    · exact ⟨createExploreAgent eff provider b, rfl, _, rfl, rfl⟩
    · exact ⟨createPlanAgent eff provider b, rfl, _, rfl, rfl⟩

/-- C10 witness: the task call dispatched under the all-false permission set
succeeds, and the explore subagent runs with file and shell enabled. -/
theorem task_dispatch_permission_bypass_witness :
    (TaskToolCapability taskBodyW).required_permission = none ∧
    (ToolExecutor.execute_tool_call
      { registry := (ToolRegistry.mk []).register (TaskToolCapability taskBodyW),
        permissions := permsOffW } jlOkEmpty taskTcW =
      { tool_call_id := "c9", tool_name := "task", content := "done",
        is_error := false }) ∧
    (∃ p : CodeAgent × Nat,
      SubagentFactory.create_subagent noEffects provStub "explore" false = .ok p ∧
      ∃ ex2, p.1.tool_executor = some ex2 ∧
        ex2.permissions =
          { allow_file_operations := true, allow_shell_commands := true,
            allow_network_access := false }) := by
  have h := task_dispatch_permission_bypass taskBodyW permsOffW jlOkEmpty taskTcW
    [] "done" noEffects provStub false "explore"
  exact ⟨h.1, h.2.1 rfl rfl rfl, h.2.2 (Or.inl rfl)⟩

/-! ## C8 -/

/-- C8 counterexample: with plan mode inactive, the exit-plan-mode capability
does invoke the wired host callback (invocation count 1, not 0) — the
plan-mode check lives inside the host callback, not in the tool — while still
returning the warning and leaving the state untouched. This refutes the
claim's assertion that the host transition callback is not invoked when plan
mode is inactive. -/
theorem exit_plan_mode_invokes_callback_when_inactive :
    (ExitPlanModeTool.execute (some exitPlanModeWired) planStateOffW).callback_invocations
      = 1 ∧
    (ExitPlanModeTool.execute (some exitPlanModeWired) planStateOffW).result =
      "Warning: Not currently in plan mode" ∧
    (ExitPlanModeTool.execute (some exitPlanModeWired) planStateOffW).state =
      planStateOffW :=
  ⟨rfl, rfl, rfl⟩

/-- C8 amended: the exit-plan-mode capability always delegates to the wired
host callback (one invocation in every state); the callback performs the
plan-mode check: when plan mode is inactive it returns the warning with no
state change and no output, and when active it transitions
Planning → NotPlanning, appends the transition narration, and its success
message is returned. -/
theorem exit_plan_mode_behavior (st : PlanHostState) :
    ExitPlanModeTool.execute (some exitPlanModeWired) st =
      if st.is_in_plan_mode then
        { state := { is_in_plan_mode := false,
                     output := st.output ++ [exitPlanNarration] },
          result := "Plan mode exited successfully. Ready to implement.",
          callback_invocations := 1 }
      else
        { state := st, result := "Warning: Not currently in plan mode",
          callback_invocations := 1 } := by
  rcases st with ⟨b, out⟩
  cases b <;>
    simp [ExitPlanModeTool.execute, exitPlanModeWired, BobInterface.on_exit_plan_mode]

/-! ## C9 -/

/-- C9 counterexample: a handler returning the empty string is invoked, but
the tool returns the fixed notice instead of the handler output verbatim
(Python `result or "Command executed successfully (no output)"`). This
refutes the claim that the handler's textual output is returned verbatim for
every well-formed command. -/
theorem slash_command_not_verbatim_on_empty :
    slashHandlerEmptyW "/noop" = .ok (some "") ∧
    (SlashCommandTool.execute (some slashHandlerEmptyW) "/noop").handler_invocations
      = 1 ∧
    (SlashCommandTool.execute (some slashHandlerEmptyW) "/noop").result =
      "Command executed successfully (no output)" ∧
    "Command executed successfully (no output)" ≠ "" :=
  ⟨rfl, rfl, rfl, by decide⟩

/-- C9 amended: malformed input (empty, or not beginning with a slash) is
rejected with an error string without invoking the handler; a well-formed
command with a handler wired is delegated to the handler, whose output is
returned verbatim when non-empty, while a None or empty-string output is
replaced by the fixed success notice. -/
theorem slash_command_behavior
    (handlerOpt : Option (String → Except String (Option String)))
    (handler : String → Except String (Option String)) (cmd s : String) :
    (SlashCommandTool.execute handlerOpt "" =
      { result := "Error: Command cannot be empty", handler_invocations := 0 }) ∧
    (cmd ≠ "" → startsWithSlash cmd = false →
      SlashCommandTool.execute handlerOpt cmd =
        { result := "Error: Slash commands must start with /. Did you mean /"
            ++ cmd ++ "?", handler_invocations := 0 }) ∧
    (cmd ≠ "" → startsWithSlash cmd = true → handler cmd = .ok (some s) →
      s ≠ "" →
      SlashCommandTool.execute (some handler) cmd =
        { result := s, handler_invocations := 1 }) ∧
    (cmd ≠ "" → startsWithSlash cmd = true →
      (handler cmd = .ok (some "") ∨ handler cmd = .ok none) →
      SlashCommandTool.execute (some handler) cmd =
        { result := "Command executed successfully (no output)",
          handler_invocations := 1 }) := by
  refine ⟨rfl, ?_, ?_, ?_⟩
  · intro hne hsw
    simp [SlashCommandTool.execute, hne, hsw]
  · intro hne hsw hh hs
    simp [SlashCommandTool.execute, hne, hsw, hh, slashResultOr, hs]
  · intro hne hsw hh
    rcases hh with hh | hh <;>
      simp [SlashCommandTool.execute, hne, hsw, hh, slashResultOr]

/-- C9 witness: the rejection paths and the verbatim path at concrete
inputs. -/
theorem slash_command_behavior_witness :
    (SlashCommandTool.execute (some slashHandlerOkW) "" =
      { result := "Error: Command cannot be empty", handler_invocations := 0 }) ∧
    (SlashCommandTool.execute (some slashHandlerOkW) "model" =
      { result := "Error: Slash commands must start with /. Did you mean /"
          ++ "model" ++ "?", handler_invocations := 0 }) ∧
    (SlashCommandTool.execute (some slashHandlerOkW) "/model" =
      { result := "switched", handler_invocations := 1 }) := by
  have h1 := slash_command_behavior (some slashHandlerOkW) slashHandlerOkW
    "model" "switched"
  have h2 := slash_command_behavior (some slashHandlerOkW) slashHandlerOkW
    "/model" "switched"
  exact ⟨h1.1, h1.2.1 (by decide) (by decide), h2.2.2.1 (by decide) (by decide)
    rfl (by decide)⟩

/-! ## C4 -/

lemma chatLoop_all_tool_calls (agent : CodeAgent) (jl : String → Except String Args)
    (hexec : agent.tool_executor.isSome = true)
    (hprov : ∀ n, ∃ m, agent.provider n = .ok m ∧ truthyList m.tool_calls = true) :
    ∀ fuel calls hist, ∃ ext,
      chatLoop agent jl fuel hist calls = .ok (hist ++ ext, calls + fuel, none) := by
  intro fuel
  induction fuel with
  | zero =>
    intro calls hist
    exact ⟨[], by simp [chatLoop]⟩
  | succ fuel ih =>
    intro calls hist
    obtain ⟨m, hm, htc⟩ := hprov calls
    obtain ⟨ex, hex⟩ := Option.isSome_iff_exists.mp hexec
    rcases htcs : m.tool_calls with _ | tcs
    · rw [htcs] at htc
      simp [truthyList] at htc
    · have hne : tcs.isEmpty = false := by
        rw [htcs] at htc
        simpa [truthyList] using htc
      obtain ⟨ext, hext⟩ := ih (calls + 1)
        (hist ++ [m] ++ (ex.execute_tool_calls jl tcs).map toolResultMessage)
      refine ⟨[m] ++ (ex.execute_tool_calls jl tcs).map toolResultMessage ++ ext, ?_⟩
      simp only [chatLoop, hm, hex, htcs, hne, Bool.false_eq_true, if_false]
      rw [hext]
      have harith : calls + 1 + fuel = calls + (fuel + 1) := by omega
      rw [harith]
      simp [List.append_assoc]

/-- C4: with a tool executor configured and a provider whose every generate
call returns a tool-call-carrying message, chat with max_iterations = k
performs exactly k provider calls, raises no exception (the result is
Except.ok), and returns the content of the last history entry as the degraded
soft-fail result. -/
theorem chat_respects_iteration_cap (agent : CodeAgent)
    (jl : String → Except String Args) (history : List Message)
    (user_input : String) (k : Nat)
    (hexec : agent.tool_executor.isSome = true)
    (hprov : ∀ n, ∃ m, agent.provider n = .ok m ∧ truthyList m.tool_calls = true)
    (hk : 1 ≤ k) :
    ∃ res, agent.chat jl history user_input k = .ok res ∧
      res.provider_calls = k ∧
      ∃ last, res.history.getLast? = some last ∧ res.response = last.content := by
  obtain ⟨ext, hext⟩ := chatLoop_all_tool_calls agent jl hexec hprov k 0
    (history ++ [{ role := "user", content := some user_input }])
  have hnil : ((history ++ [{ role := "user", content := some user_input }] : List Message)
      ++ ext) ≠ [] := by simp
  obtain ⟨last, hlast⟩ := Option.isSome_iff_exists.mp (List.getLast?_isSome.mpr hnil)
  have hchat : agent.chat jl history user_input k = .ok
      { history := (history ++ [{ role := "user", content := some user_input }]) ++ ext,
        provider_calls := 0 + k,
        response := last.content,
        update_log := if agent.on_conversation_update then
          [(history ++ [{ role := "user", content := some user_input }]) ++ ext]
          else [] } := by
    simp only [CodeAgent.chat]
    rw [hext]
    dsimp only
    rw [hlast]
  exact ⟨_, hchat, by simp, last, hlast, rfl⟩

/-- C4 witness: a provider that always requests a tool call, k = 2. -/
theorem chat_respects_iteration_cap_witness :
    ∃ res, agentLoopW.chat jlOkEmpty [] "go" 2 = .ok res ∧
      res.provider_calls = 2 ∧
      ∃ last, res.history.getLast? = some last ∧ res.response = last.content :=
  chat_respects_iteration_cap agentLoopW jlOkEmpty [] "go" 2 rfl
    (fun _ => ⟨msgCallW, rfl, rfl⟩) (by decide)

/-! ## C7 -/

/-- C7 counterexample: in a concrete two-iteration run with the save callback
wired, the snapshot right after the first tool-result batch (hist3W, the
3-entry prefix) is never passed to on_conversation_update: the callback log
of the whole run is just the single final 4-entry history. This refutes the
claim that the callback is invoked after every turn-completing history
mutation, in particular after a tool-result batch appended during the loop. -/
theorem conversation_update_not_per_batch :
    agentW.chat jlOkEmpty [] "hi" 3 = .ok resW ∧
    resW.history.take 3 = hist3W ∧
    resW.update_log = [histFullW] ∧
    hist3W ∉ [histFullW] := by
  refine ⟨rfl, rfl, rfl, ?_⟩
  decide

/-- C7 amended: the save callback, when wired, is invoked exactly once per
chat call — at the end, after the final or degraded response and all tool
batches are already in history — with the full history snapshot, and exactly
once per stream_chat call after the streamed response is appended; it is not
invoked after each tool-result batch inside the loop. -/
theorem conversation_update_once_per_call (agent : CodeAgent)
    (jl : String → Except String Args) (history : List Message)
    (user_input : String) (k : Nat) (chunks : List String) (res : ChatResult)
    (hwired : agent.on_conversation_update = true)
    (hok : agent.chat jl history user_input k = .ok res) :
    res.update_log = [res.history] ∧
    (agent.stream_chat history user_input chunks).update_log =
      [(agent.stream_chat history user_input chunks).history] := by
  constructor
  · simp only [CodeAgent.chat] at hok
    rcases hcl : chatLoop agent jl k
        (history ++ [{ role := "user", content := some user_input }]) 0 with
      e | ⟨hist, calls, fo⟩
    · rw [hcl] at hok
      cases hok
    · rw [hcl] at hok
      dsimp only at hok
      injection hok with h
      subst h
      simp [hwired]
  · simp [CodeAgent.stream_chat, hwired]

/-- C7 witness: the concrete two-iteration run. -/
theorem conversation_update_once_per_call_witness :
    resW.update_log = [resW.history] ∧
    (agentW.stream_chat [] "hi" []).update_log =
      [(agentW.stream_chat [] "hi" []).history] :=
  conversation_update_once_per_call agentW jlOkEmpty [] "hi" 3 [] resW rfl rfl

/-! ## C6 -/

lemma taskHandleException_never_raises (t : TaskToolState) (ty e : String)
    (herr : ∀ cb ty2 m2, t.on_subagent_event = some cb →
      cb (SubagentEvent.error ty2 m2) = .ok ()) :
    (taskHandleException t ty e).fst =
      .ok (some ("Error executing " ++ ty ++ " subagent: " ++ e)) := by
  simp only [taskHandleException]
  rcases h : t.on_subagent_event with _ | cb
  · rfl
  · simp only [herr cb _ _ h]

/-- C6 counterexample: a host event callback that raises makes
TaskTool.execute raise past its boundary: the start emission raises, the
except branch then emits the error event, whose own raising propagates out of
execute (the Python `await self.on_subagent_event("error", ...)` inside the
except block is unprotected). This refutes the claim that execute never
raises and always returns a string. -/
theorem task_execute_raises_through_error_emission :
    TaskTool.execute tBadW noEffects jlOkEmpty "p" "explore" none =
      (.error "host crashed",
       [SubagentEvent.start "explore" "p",
        SubagentEvent.error "explore"
          "Error executing explore subagent: host crashed"]) := rfl

/-- C6 amended: provided the host event callback does not raise on error
events, TaskTool.execute never raises: any raising step of the try block
(start-event emission, provider creation, subagent construction, the
subagent's chat, or the complete emission) is caught, the error lifecycle
event is emitted to the host, and the failure description is returned as the
tool's text; when every step succeeds, the complete event is emitted with the
final result, which is returned. -/
theorem task_execute_boundary (t : TaskToolState) (eff : ToolEffects)
    (jl : String → Except String Args) (p ty : String) (model : Option String)
    (herr : ∀ cb ty2 m2, t.on_subagent_event = some cb →
      cb (SubagentEvent.error ty2 m2) = .ok ()) :
    (∃ s, (TaskTool.execute t eff jl p ty model).fst = .ok s) ∧
    (∀ cb e, t.on_subagent_event = some cb → t.is_subagent = false →
      (ty = "explore" ∨ ty = "plan") →
      cb (SubagentEvent.start ty p) = .error e →
      TaskTool.execute t eff jl p ty model =
        (.ok (some ("Error executing " ++ ty ++ " subagent: " ++ e)),
         [SubagentEvent.start ty p,
          SubagentEvent.error ty
            ("Error executing " ++ ty ++ " subagent: " ++ e)])) ∧
    (∀ cb provider sub mi res, t.on_subagent_event = some cb →
      t.is_subagent = false → (ty = "explore" ∨ ty = "plan") →
      cb (SubagentEvent.start ty p) = .ok () →
      t.provider_factory (if truthyStr model then model else none) = .ok provider →
      SubagentFactory.create_subagent eff provider ty true = .ok (sub, mi) →
      sub.chat jl [] p mi = .ok res →
      cb (SubagentEvent.complete ty res.response) = .ok () →
      TaskTool.execute t eff jl p ty model =
        (.ok res.response,
         [SubagentEvent.start ty p, SubagentEvent.complete ty res.response])) := by
  refine ⟨?_, ?_, ?_⟩
  · unfold TaskTool.execute
    split
    · exact ⟨_, rfl⟩
    split
    · exact ⟨_, rfl⟩
    unfold taskTryBlock taskFail
    rcases hstart : (taskEmit t (SubagentEvent.start ty p)).fst with e | u
    · simp only [hstart]
      exact ⟨_, taskHandleException_never_raises t ty e herr⟩
    simp only [hstart]
    rcases hpf : t.provider_factory (if truthyStr model then model else none) with
      e | provider
    · simp only [hpf]
      exact ⟨_, taskHandleException_never_raises t ty e herr⟩
    simp only [hpf]
    rcases hcr : SubagentFactory.create_subagent eff provider ty true with
      e | ⟨sub, mi⟩
    · simp only [hcr]
      exact ⟨_, taskHandleException_never_raises t ty e herr⟩
    simp only [hcr]
    rcases hch : sub.chat jl [] p mi with e | res
    · simp only [hch]
      exact ⟨_, taskHandleException_never_raises t ty e herr⟩
    simp only [hch]
    rcases hcomp : (taskEmit t (SubagentEvent.complete ty res.response)).fst with
      e | u
    · simp only [hcomp]
      exact ⟨_, taskHandleException_never_raises t ty e herr⟩
    simp only [hcomp]
    exact ⟨res.response, rfl⟩
  · intro cb e hcb hsub hty hstart
    rcases hty with rfl | rfl <;>
      simp [TaskTool.execute, taskTryBlock, taskFail, taskEmit,
        taskHandleException, hsub, hcb, hstart, herr cb _ _ hcb]
  · intro cb provider sub mi res hcb hsub hty hstart hpf hcr hch hcomp
    rcases hty with rfl | rfl <;>
      simp [TaskTool.execute, taskTryBlock, taskFail, taskEmit, hsub, hcb,
        hstart, hpf, hcr, hch, hcomp]

/-- C6 witness: a well-behaved host callback and a working provider; the
explore subagent completes and the complete event is emitted. -/
theorem task_execute_boundary_witness :
    TaskTool.execute tGoodW noEffects jlOkEmpty "p" "explore" none =
      (.ok (some "done"),
       [SubagentEvent.start "explore" "p",
        SubagentEvent.complete "explore" (some "done")]) := by
  have h := task_execute_boundary tGoodW noEffects jlOkEmpty "p" "explore" none
    (fun cb ty2 m2 hcb => by
      injection hcb with h2
      rw [← h2])
  exact h.2.2 (fun _ => .ok ()) provDoneW
    (createExploreAgent noEffects provDoneW true).1
    (createExploreAgent noEffects provDoneW true).2 resDoneW
    rfl rfl (Or.inl rfl) rfl rfl rfl rfl rfl

/-! ## C5 -/

lemma mem_toolResultMessage_role {l : List ToolResult} {m : Message}
    (hm : m ∈ l.map toolResultMessage) : m.role = "tool" := by
  obtain ⟨r, -, rfl⟩ := List.mem_map.mp hm
  rfl

lemma chatLoop_trace (agent : CodeAgent) (jl : String → Except String Args) :
    ∀ fuel hist calls hist2 c2 fo,
      chatLoop agent jl fuel hist calls = .ok (hist2, c2, fo) →
      ∃ ext, hist2 = hist ++ ext ∧ TraceShape agent jl calls ext := by
  intro fuel
  induction fuel with
  | zero =>
    intro hist calls hist2 c2 fo h
    simp only [chatLoop, Except.ok.injEq, Prod.mk.injEq] at h
    obtain ⟨h1, -, -⟩ := h
    exact ⟨[], by simp [← h1], TraceShape.empty calls⟩
  | succ fuel ih =>
    intro hist calls hist2 c2 fo h
    rcases hp : agent.provider calls with e | r
    · simp only [chatLoop, hp] at h
      cases h
    · rcases hex : agent.tool_executor with _ | ex
      · simp only [chatLoop, hp, hex, Except.ok.injEq, Prod.mk.injEq] at h
        obtain ⟨h1, -, -⟩ := h
        refine ⟨[r], h1.symm, TraceShape.final calls r hp ?_⟩
        intro ex' tcs hex' htc'
        rw [hex] at hex'
        cases hex'
      · rcases htc : r.tool_calls with _ | tcs
        · simp only [chatLoop, hp, hex, htc, Except.ok.injEq, Prod.mk.injEq] at h
          obtain ⟨h1, -, -⟩ := h
          refine ⟨[r], h1.symm, TraceShape.final calls r hp ?_⟩
          intro ex' tcs' hex' htc'
          rw [htc] at htc'
          cases htc'
        · by_cases hne : tcs.isEmpty
          · simp only [chatLoop, hp, hex, htc, hne, if_true, Except.ok.injEq,
              Prod.mk.injEq] at h
            obtain ⟨h1, -, -⟩ := h
            refine ⟨[r], h1.symm, TraceShape.final calls r hp ?_⟩
            intro ex' tcs' hex' htc'
            rw [htc] at htc'
            injection htc' with h2
            rw [← h2]
            exact hne
          · have hne' : tcs.isEmpty = false := by simpa using hne
            simp only [chatLoop, hp, hex, htc, hne', Bool.false_eq_true,
              if_false] at h
            obtain ⟨ext, hh, hshape⟩ := ih _ _ _ _ _ h
            refine ⟨r :: ((ex.execute_tool_calls jl tcs).map toolResultMessage
              ++ ext), ?_, ?_⟩
            · rw [hh]
              simp [List.append_assoc]
            · exact TraceShape.batch calls r ex tcs ext hp hex htc hne' hshape

lemma traceShape_head (agent : CodeAgent) (jl : String → Except String Args)
    (hroles : ∀ n m, agent.provider n = .ok m → m.role = "assistant") :
    ∀ calls ext, TraceShape agent jl calls ext →
      ∀ m, ext.head? = some m → m.role = "assistant" := by
  intro calls ext h m hm
  cases h with
  | empty => cases hm
  | final calls r hr hstop =>
    simp only [List.head?_cons, Option.some.injEq] at hm
    rw [← hm]
    exact hroles _ _ hr
  | batch calls r ex tcs rest hr hex htc hne hrest =>
    simp only [List.head?_cons, Option.some.injEq] at hm
    rw [← hm]
    exact hroles _ _ hr

lemma traceShape_batch_exact (agent : CodeAgent) (jl : String → Except String Args)
    (ex0 : ToolExecutor) (hexec : agent.tool_executor = some ex0)
    (hroles : ∀ n m, agent.provider n = .ok m → m.role = "assistant") :
    ∀ calls ext, TraceShape agent jl calls ext →
      ∀ pre a post cs, ext = pre ++ a :: post → a.role = "assistant" →
        a.tool_calls = some cs → cs ≠ [] →
        post.take cs.length = (ex0.execute_tool_calls jl cs).map toolResultMessage ∧
        (∀ m, (post.drop cs.length).head? = some m → m.role = "assistant") := by
  intro calls0 ext0 h
  induction h with
  | empty calls =>
    intro pre a post cs hsplit ha hcs hne
    simp at hsplit
  | final calls r hr hstop =>
    intro pre a post cs hsplit ha hcs hne
    rcases pre with _ | ⟨x, pre'⟩
    · simp only [List.nil_append, List.cons.injEq] at hsplit
      obtain ⟨h1, h2⟩ := hsplit
      subst h1
      have hstop' := hstop ex0 cs hexec hcs
      rw [List.isEmpty_iff] at hstop'
      exact absurd hstop' hne
    · simp only [List.cons_append, List.cons.injEq] at hsplit
      obtain ⟨-, h2⟩ := hsplit
      exact absurd h2.symm (by simp)
  | batch calls r ex tcs rest hr hex htc hne2 hrest ih =>
    intro pre a post cs hsplit ha hcs hne
    have hexx : ex = ex0 := by
      rw [hex] at hexec
      injection hexec
    subst hexx
    rcases pre with _ | ⟨x, pre'⟩
    · simp only [List.nil_append, List.cons.injEq] at hsplit
      obtain ⟨h1, h2⟩ := hsplit
      subst h1
      rw [htc] at hcs
      injection hcs with hcs2
      subst hcs2
      have hlen : ((ex.execute_tool_calls jl tcs).map toolResultMessage).length
          = tcs.length := by
        simp [ToolExecutor.execute_tool_calls]
      constructor
      · rw [← h2]
        exact List.take_left' hlen
      · rw [← h2, List.drop_left' hlen]
        exact fun m hm => traceShape_head agent jl hroles _ _ hrest m hm
    · simp only [List.cons_append, List.cons.injEq] at hsplit
      obtain ⟨-, h2⟩ := hsplit
      rcases List.append_eq_append_iff.mp h2 with ⟨mid, -, hrest2⟩ | ⟨mid, hbatch, hmid⟩
      · exact ih mid a post cs hrest2 ha hcs hne
      · rcases mid with _ | ⟨y, mid'⟩
        · simp only [List.nil_append] at hmid
          exact ih [] a post cs (by simpa using hmid.symm) ha hcs hne
        · simp only [List.cons_append, List.cons.injEq] at hmid
          obtain ⟨hay, -⟩ := hmid
          have hymem : a ∈ (ex.execute_tool_calls jl tcs).map toolResultMessage := by
            rw [hbatch, hay]
            simp
          have : a.role = "tool" := mem_toolResultMessage_role hymem
          rw [this] at ha
          exact absurd ha (by decide)

lemma provW_assistant : ∀ n m, provW n = .ok m → m.role = "assistant" := by
  intro n m h
  unfold provW at h
  split at h <;> (injection h with h2; rw [← h2]; rfl)

/-- C5: every conversation history produced by CodeAgent.chat (with a tool
executor configured and a provider that answers with assistant-role messages,
as every concrete provider implementation does) satisfies: each assistant
message carrying N tool calls is followed by exactly N tool-role messages
whose tool_call_id values are a permutation of that message's tool-call ids
(in fact the identical sequence), and the next message after the batch, if
any, is not tool-role; the batch is appended before the next provider call,
which produces that next (assistant) message. -/
theorem chat_history_tool_batch_permutation (agent : CodeAgent)
    (jl : String → Except String Args) (user_input : String) (k : Nat)
    (res : ChatResult) (pre post : List Message) (a : Message) (cs : List ToolCall)
    (hexec : agent.tool_executor.isSome = true)
    (hroles : ∀ n m, agent.provider n = .ok m → m.role = "assistant")
    (hok : agent.chat jl [] user_input k = .ok res)
    (hsplit : res.history = pre ++ a :: post)
    (ha : a.role = "assistant") (hcs : a.tool_calls = some cs) (hne : cs ≠ []) :
    (post.take cs.length).length = cs.length ∧
    (∀ m ∈ post.take cs.length, m.role = "tool") ∧
    ((post.take cs.length).map Message.tool_call_id).Perm
      (cs.map fun c => some c.id) ∧
    (∀ m, (post.drop cs.length).head? = some m → m.role ≠ "tool") := by
  obtain ⟨ex0, hex0⟩ := Option.isSome_iff_exists.mp hexec
  simp only [CodeAgent.chat] at hok
  rcases hcl : chatLoop agent jl k
      ([] ++ [{ role := "user", content := some user_input }]) 0 with
    e | ⟨hist, calls, fo⟩
  · rw [hcl] at hok
    cases hok
  · rw [hcl] at hok
    dsimp only at hok
    injection hok with h
    obtain ⟨ext, hh, hshape⟩ := chatLoop_trace agent jl k _ 0 _ _ _ hcl
    subst h
    rw [hh] at hsplit
    rcases pre with _ | ⟨x, pre'⟩
    · simp only [List.nil_append] at hsplit
      injection hsplit with h1 h2
      rw [← h1] at ha
      dsimp only at ha
      exact absurd ha (by decide)
    · simp only [List.nil_append, List.cons_append] at hsplit
      injection hsplit with h1 h2
      obtain ⟨htake, hdrop⟩ := traceShape_batch_exact agent jl ex0 hex0 hroles
        0 ext hshape pre' a post cs h2 ha hcs hne
      refine ⟨?_, ?_, ?_, ?_⟩
      · rw [htake]
        simp [ToolExecutor.execute_tool_calls]
      · intro m hm
        rw [htake] at hm
        exact mem_toolResultMessage_role hm
      · rw [htake]
        have hids : ((ex0.execute_tool_calls jl cs).map toolResultMessage).map
            Message.tool_call_id = cs.map (fun c => some c.id) := by
          unfold ToolExecutor.execute_tool_calls
          rw [List.map_map, List.map_map]
          exact List.map_congr_left fun c _ => by
            simp [toolResultMessage, Function.comp, execute_tool_call_id]
        rw [hids]
      · intro m hm
        rw [hdrop m hm]
        decide

/-- C5 witness: the concrete two-iteration run of agentW: the assistant
message with one tool call is followed by exactly one tool-role message with
the matching id, and the next message is not tool-role. -/
theorem chat_history_tool_batch_permutation_witness :
    (([toolMsgW, msgDoneW].take 1).length = 1) ∧
    (∀ m ∈ [toolMsgW, msgDoneW].take 1, m.role = "tool") ∧
    (([toolMsgW, msgDoneW].take 1).map Message.tool_call_id).Perm
      (([{ id := "call_1", function := { name := "sh", arguments := "{}" } }]
        : List ToolCall).map fun c => some c.id) ∧
    (∀ m, ([toolMsgW, msgDoneW].drop 1).head? = some m → m.role ≠ "tool") :=
  chat_history_tool_batch_permutation agentW jlOkEmpty "hi" 3 resW
    [userHiW] [toolMsgW, msgDoneW] msgCallW
    [{ id := "call_1", function := { name := "sh", arguments := "{}" } }]
    rfl provW_assistant rfl rfl rfl rfl (List.cons_ne_nil _ _)

end Bob
